import Mathlib

/-!
# Verification of the OpenSubdiv `Far::PatchTables` interpolation core

Shallow embedding of `opensubdiv/far/patchTables.h` (limit-surface
evaluation core).  C++ `float` scalars are modelled as exact rationals
(`ℚ`); the claims under scrutiny concern exact small-integer weights,
partition-of-unity identities and control flow, all of which the C++
code computes exactly at the inputs of interest.

The destination accumulator (`U & dst` in the templates) supports
`Clear()` and `AddWithWeight(value, wValue, wDs, wDt)`; it is modelled
as a triple of rational accumulators (value, first and second partial
derivative).  The source buffer (`T const & src`) is modelled as a
total function from vertex indices to rationals.
-/

namespace OpenSubdiv
namespace Far

/-- Destination primvar accumulator: value and the two tangent accumulators.
Mirrors the minimal accumulator contract `{Clear, AddWithWeight}`. -/
structure Primvar where
  v : ℚ
  d1 : ℚ
  d2 : ℚ
  deriving DecidableEq, Repr

/-- Accumulator operation `dst.AddWithWeight(srcVal, w, w1, w2)`:
accumulate one source contribution with three weights. -/
def addWithWeight (dst : Primvar) (srcVal w w1 w2 : ℚ) : Primvar :=
  ⟨dst.v + w * srcVal, dst.d1 + w1 * srcVal, dst.d2 + w2 * srcVal⟩

/-- Accumulator operation `dst.Clear()`: reset the accumulator to the neutral (zero) state. -/
def clear (_dst : Primvar) : Primvar := ⟨0, 0, 0⟩

/-- Value weights of `PatchTables::InterpolateBilinear`:
`Q[4] = { os*ot, s*ot, s*t, os*t }` with `os = 1-s`, `ot = 1-t`. -/
def bilinearQ (s t : ℚ) : List ℚ :=
  [(1 - s) * (1 - t), s * (1 - t), s * t, (1 - s) * t]

/-- First-derivative weights of `PatchTables::InterpolateBilinear`:
`dQ1[4] = { t-1.0f, ot, t, -t }`. -/
def bilinearDQ1 (s t : ℚ) : List ℚ :=
  [t - 1, 1 - t, t, -t]

/-- Second-derivative weights of `PatchTables::InterpolateBilinear`:
`dQ2[4] = { s-1.0f, -s, s, os }`. -/
def bilinearDQ2 (s t : ℚ) : List ℚ :=
  [s - 1, -s, s, 1 - s]

/-- Embedding of `PatchTables::InterpolateBilinear`: the loop
`for k<4, dst.AddWithWeight(src[cvs[k]], Q[k], dQ1[k], dQ2[k])`. -/
def interpolateBilinear (cvs : ℕ → ℕ) (s t : ℚ) (src : ℕ → ℚ)
    (dst : Primvar) : Primvar :=
  (List.range 4).foldl (fun d k =>
    addWithWeight d (src (cvs k))
      ((bilinearQ s t).getD k 0)
      ((bilinearDQ1 s t).getD k 0)
      ((bilinearDQ2 s t).getD k 0)) dst

/-- Embedding of `PatchTables::InterpolateRegularPatch`: direct one-to-one weighted sum
over the 16 control vertices. -/
def interpolateRegularPatch (cvs : ℕ → ℕ) (Q Qd1 Qd2 : ℕ → ℚ)
    (src : ℕ → ℚ) (dst : Primvar) : Primvar :=
  (List.range 16).foldl (fun d k =>
    addWithWeight d (src (cvs k)) (Q k) (Qd1 k) (Qd2 k)) dst

/-- Embedding of `PatchTables::InterpolateBoundaryPatch`: first loop mirrors the 4
missing outer-ring vertices (`2·v[k]` then `−1·v[k+4]` against weight
index `k`), second loop maps weights `Q[4..15]` directly onto the 12
stored vertices. -/
def interpolateBoundaryPatch (cvs : ℕ → ℕ) (Q Qd1 Qd2 : ℕ → ℚ)
    (src : ℕ → ℚ) (dst : Primvar) : Primvar :=
  let d1 := (List.range 4).foldl (fun d k =>
    let d := addWithWeight d (src (cvs k))
      (2 * Q k) (2 * Qd1 k) (2 * Qd2 k)
    addWithWeight d (src (cvs (k + 4)))
      (-1 * Q k) (-1 * Qd1 k) (-1 * Qd2 k)) dst
  (List.range 12).foldl (fun d k =>
    addWithWeight d (src (cvs k)) (Q (k + 4)) (Qd1 (k + 4)) (Qd2 (k + 4))) d1

/-- Embedding of `PatchTables::InterpolateCornerPatch`: mirrors on the two missing
edges (`M0–M2` against weights `0..2`, `M4–M6` against weights
`7,11,15`), second-order mirror `M3 = −2·v1 + 4·v2 + v4 − 2·v5` against
weight 3, then direct 3×3 mapping of weights `y*4+x+4`. -/
def interpolateCornerPatch (cvs : ℕ → ℕ) (Q Qd1 Qd2 : ℕ → ℚ)
    (src : ℕ → ℚ) (dst : Primvar) : Primvar :=
  let dM02 := (List.range 3).foldl (fun d k =>
    let d := addWithWeight d (src (cvs k))
      (2 * Q k) (2 * Qd1 k) (2 * Qd2 k)
    addWithWeight d (src (cvs (k + 3)))
      (-1 * Q k) (-1 * Qd1 k) (-1 * Qd2 k)) dst
  let dM46 := (List.range 3).foldl (fun d k =>
    let idx := (k + 1) * 4 + 3
    let d := addWithWeight d (src (cvs (k * 3 + 2)))
      (2 * Q idx) (2 * Qd1 idx) (2 * Qd2 idx)
    addWithWeight d (src (cvs (k * 3 + 1)))
      (-1 * Q idx) (-1 * Qd1 idx) (-1 * Qd2 idx)) dM02
  let dM3 := addWithWeight dM46 (src (cvs 1)) (-2 * Q 3) (-2 * Qd1 3) (-2 * Qd2 3)
  let dM3 := addWithWeight dM3 (src (cvs 2)) (4 * Q 3) (4 * Qd1 3) (4 * Qd2 3)
  let dM3 := addWithWeight dM3 (src (cvs 4)) (1 * Q 3) (1 * Qd1 3) (1 * Qd2 3)
  let dM3 := addWithWeight dM3 (src (cvs 5)) (-2 * Q 3) (-2 * Qd1 3) (-2 * Qd2 3)
  (List.range 3).foldl (fun d y =>
    (List.range 3).foldl (fun d x =>
      let idx := y * 4 + x + 4
      addWithWeight d (src (cvs (y * 3 + x))) (Q idx) (Qd1 idx) (Qd2 idx)) d) dM3

/-! ## Gregory-basis (end-cap) patch interpolation -/

/-- A stencil (`Far::Stencil`, from `stencilTables.h`, external
collaborator): the list of `(source vertex index, weight)` pairs
returned by `GetVertexIndices` / `GetWeights`, of length `GetSize`.
A stencil table is modelled as a function from stencil index to its
entry list (`StencilTables::GetStencil`). -/
def StencilFn : Type := ℕ → List (ℕ × ℚ)

/-- Total weighted value of a stencil against a source buffer:
`∑ j, src[srcIndices[j]] * srcWeights[j]`. -/
def stencilVal (src : ℕ → ℚ) (entries : List (ℕ × ℚ)) : ℚ :=
  (entries.map fun e => src e.1 * e.2).sum

/-- One stencil-expansion loop of `InterpolateGregoryPatch`:
`for j < s.GetSize(), dst.AddWithWeight(src[srcIndices[j]],
wq*srcWeights[j], w1*srcWeights[j], w2*srcWeights[j])`. -/
def stencilAccum (src : ℕ → ℚ) (entries : List (ℕ × ℚ))
    (wq w1 w2 : ℚ) (dst : Primvar) : Primvar :=
  entries.foldl (fun d e =>
    addWithWeight d (src e.1) (wq * e.2) (w1 * e.2) (w2 * e.2)) dst

/-- The four sub-quadrant denominators of `InterpolateGregoryPatch`:
`d11 = s+t` (replaced by `1.0` when `s+t == 0`), `d12 = (1-s)+t`,
`d21 = s+(1-t)`, `d22 = (1-s)+(1-t)`, each with the same zero-pinning. -/
def gregoryDenoms (s t : ℚ) : ℚ × ℚ × ℚ × ℚ :=
  let ss := 1 - s
  let tt := 1 - t
  (if s + t = 0 then 1 else s + t,
   if ss + t = 0 then 1 else ss + t,
   if s + tt = 0 then 1 else s + tt,
   if ss + tt = 0 then 1 else ss + tt)

/-- The blend-weight pairs `weights[4][2] = { {s/d11, t/d11},
{ss/d12, t/d12}, {s/d21, tt/d21}, {ss/d22, tt/d22} }` of
`InterpolateGregoryPatch`, indexed by sub-quadrant (`fcount`). -/
def gregoryBlendWeights (s t : ℚ) : ℕ → ℚ × ℚ
  | 0 => ((s / (gregoryDenoms s t).1), (t / (gregoryDenoms s t).1))
  | 1 => (((1 - s) / (gregoryDenoms s t).2.1), (t / (gregoryDenoms s t).2.1))
  | 2 => ((s / (gregoryDenoms s t).2.2.1), ((1 - t) / (gregoryDenoms s t).2.2.1))
  | _ => (((1 - s) / (gregoryDenoms s t).2.2.2), ((1 - t) / (gregoryDenoms s t).2.2.2))

/-- The fixed 16→20 permutation table of `InterpolateGregoryPatch`:
`int const permute[16] = { 0, 1, 7, 5, 2, -1, -1, 6, 16, -1, -1, 12,
15, 17, 11, 10 }` (`-1` marks the four blended 0-ring slots). -/
def permute : ℕ → Int
  | 0 => 0 | 1 => 1 | 2 => 7 | 3 => 5 | 4 => 2 | 5 => -1 | 6 => -1 | 7 => 6
  | 8 => 16 | 9 => -1 | 10 => -1 | 11 => 12 | 12 => 15 | 13 => 17 | 14 => 11
  | _ => 10

/-- The blended-slot stencil-pair table of `InterpolateGregoryPatch`:
`int const fpermute[4][2] = { {3, 4}, {9, 8}, {19, 18}, {13, 14} }`. -/
def fpermute : ℕ → ℕ × ℕ
  | 0 => (3, 4) | 1 => (9, 8) | 2 => (19, 18) | _ => (13, 14)

/-- Embedding of `PatchTables::InterpolateGregoryPatch`: the loop over the 16
tensor-basis slots.  Slots whose `permute` entry is `-1` blend two
extra basis stencils (`fpermute[fcount]`) with the sub-quadrant blend
weights; the others expand the single stencil at
`stencilIndex + permute[i]`.  The loop state carries `fcount`. -/
def interpolateGregoryPatch (basisStencils : StencilFn) (stencilIndex : ℕ)
    (s t : ℚ) (Q Qd1 Qd2 : ℕ → ℚ) (src : ℕ → ℚ) (dst : Primvar) : Primvar :=
  ((List.range 16).foldl (fun (st : ℕ × Primvar) i =>
    let fcount := st.1
    let index := permute i
    if index = -1 then
      let v0 := (fpermute fcount).1
      let v1 := (fpermute fcount).2
      let w0 := (gregoryBlendWeights s t fcount).1
      let w1 := (gregoryBlendWeights s t fcount).2
      let d := stencilAccum src (basisStencils (stencilIndex + v0))
        (Q i * w0) (Qd1 i * w0) (Qd2 i * w0) st.2
      let d := stencilAccum src (basisStencils (stencilIndex + v1))
        (Q i * w1) (Qd1 i * w1) (Qd2 i * w1) d
      (fcount + 1, d)
    else
      (fcount,
       stencilAccum src (basisStencils (stencilIndex + index.toNat))
         (Q i) (Qd1 i) (Qd2 i) st.2)) (0, dst)).2

/-! ## The `PatchTables` store and the `Interpolate` / `Limit` entry points -/

/-- Modelled from the spec: `PatchDescriptor::Type` lives in
`patchDescriptor.h`, which is not part of the supplied source; only its
use in `patchTables.h` is.  The spec's dispatch table (§4.3) requires
the four bicubic kinds handled inside the range test
`ptype >= REGULAR and ptype <= CORNER` — `REGULAR`, `SINGLE_CREASE`,
`BOUNDARY`, `CORNER` — to be exactly the enumerators in that closed
range, with the Gregory kinds and `GREGORY_BASIS` outside it; the
non-patch/uniform kinds (`NON_PATCH`, points, lines, `QUADS`,
triangles, loop) precede them. -/
inductive PatchType
  | NON_PATCH | POINTS | LINES | QUADS | TRIANGLES | LOOP
  | REGULAR | SINGLE_CREASE | BOUNDARY | CORNER
  | GREGORY | GREGORY_BOUNDARY | GREGORY_BASIS
  deriving DecidableEq, Repr

/-- The integer value of each `PatchDescriptor::Type` enumerator, in
declaration order (C++ enum comparison is on these codes). -/
def PatchType.code : PatchType → ℕ
  | .NON_PATCH => 0 | .POINTS => 1 | .LINES => 2 | .QUADS => 3
  | .TRIANGLES => 4 | .LOOP => 5 | .REGULAR => 6 | .SINGLE_CREASE => 7
  | .BOUNDARY => 8 | .CORNER => 9 | .GREGORY => 10
  | .GREGORY_BOUNDARY => 11 | .GREGORY_BASIS => 12

/-- The distinct fatal assertions of the evaluation entry points. -/
inductive EvalError
  /-- Failure of `assert(IsFeatureAdaptive())` in `Limit` or of
  `assert(not IsFeatureAdaptive())` in `Interpolate`. -/
  | preconditionAssert
  /-- Failure of `assert(0)` in the `Limit` dispatch (unsupported patch kind). -/
  | dispatchAssert
  /-- Failure of `assert(_endcapStencilTables)` in the `GREGORY_BASIS` branch. -/
  | missingStencilsAssert
  deriving DecidableEq, Repr

/-- Embedding of `PatchTables::PatchHandle`: array index, absolute patch index, and
relative offset to the first CV of the patch in the array (doubling as
the end-cap stencil base index for Gregory-basis patches). -/
structure PatchHandle where
  arrayIndex : ℕ
  patchIndex : ℕ
  vertIndex : ℕ
  deriving DecidableEq, Repr

/-- The parts of the `PatchTables` store that `Interpolate` and `Limit`
read.  Components whose implementations live outside the supplied
header are abstract function-valued fields resolved per handle:
`arrayType` is `GetPatchArrayDescriptor(arrayIndex).GetType()`,
`normalize` is `_paramTable[patchIndex].bitField.Normalize(s,t)`
(from `patchParam.h`), `patchCvs` is `GetPatchVertices(handle)`,
`getBasisWeights` is `getBasisWeightsAtUV` applied to the patch's
bit-field (returning the three 16-weight vectors `Q`, `Qd1`, `Qd2`),
`endcapStencils` is `_endcapStencilTables` (`none` models a null
pointer), and `featureAdaptive` is `IsFeatureAdaptive()`. -/
structure PatchTablesModel where
  featureAdaptive : Bool
  arrayType : ℕ → PatchType
  normalize : ℕ → ℚ × ℚ → ℚ × ℚ
  patchCvs : PatchHandle → ℕ → ℕ
  getBasisWeights : Bool → ℕ → ℚ → ℚ → (ℕ → ℚ) × (ℕ → ℚ) × (ℕ → ℚ)
  endcapStencils : Option StencilFn

/-- Selector `BASIS_BSPLINE` passed to `getBasisWeightsAtUV` (the
`TensorBasis` enum is modelled as `Bool`: `true` for B-spline,
`false` for Bezier). -/
def BASIS_BSPLINE : Bool := true

/-- Selector `BASIS_BEZIER` passed to `getBasisWeightsAtUV`. -/
def BASIS_BEZIER : Bool := false

/-- Embedding of `PatchTables::Interpolate`: asserts the store is not
feature-adaptive, fetches the patch CVs, normalizes `(s,t)` through the
patch's bit-field, clears the destination and runs
`InterpolateBilinear`. -/
def Interpolate (pt : PatchTablesModel) (handle : PatchHandle)
    (s t : ℚ) (src : ℕ → ℚ) (dst : Primvar) : Except EvalError Primvar :=
  if pt.featureAdaptive then .error .preconditionAssert
  else
    let cvs := pt.patchCvs handle
    let st := pt.normalize handle.patchIndex (s, t)
    .ok (interpolateBilinear cvs st.1 st.2 src (clear dst))

/-- Body of `PatchTables::Limit` after its
`assert(IsFeatureAdaptive())` precondition check: normalize `(s,t)`,
clear the destination, and dispatch on the patch array's descriptor
type. -/
def limitBody (pt : PatchTablesModel) (handle : PatchHandle)
    (s t : ℚ) (src : ℕ → ℚ) (dst : Primvar) : Except EvalError Primvar :=
  let st := pt.normalize handle.patchIndex (s, t)
  let ptype := pt.arrayType handle.arrayIndex
  let dst := clear dst
  if PatchType.REGULAR.code ≤ ptype.code ∧ ptype.code ≤ PatchType.CORNER.code then
    let w := pt.getBasisWeights BASIS_BSPLINE handle.patchIndex st.1 st.2
    let cvs := pt.patchCvs handle
    match ptype with
    | .REGULAR => .ok (interpolateRegularPatch cvs w.1 w.2.1 w.2.2 src dst)
    | .SINGLE_CREASE =>
      -- TODO in the source: InterpolateSingleCreasePatch is not implemented;
      -- the case falls through with no accumulation.
      .ok dst
    | .BOUNDARY => .ok (interpolateBoundaryPatch cvs w.1 w.2.1 w.2.2 src dst)
    | .CORNER => .ok (interpolateCornerPatch cvs w.1 w.2.1 w.2.2 src dst)
    | .GREGORY => .error .dispatchAssert
    | .GREGORY_BOUNDARY => .error .dispatchAssert
    | _ => .error .dispatchAssert
  else if ptype = .GREGORY_BASIS then
    match pt.endcapStencils with
    | none => .error .missingStencilsAssert
    | some stencils =>
      let w := pt.getBasisWeights BASIS_BEZIER handle.patchIndex st.1 st.2
      .ok (interpolateGregoryPatch stencils handle.vertIndex st.1 st.2
        w.1 w.2.1 w.2.2 src dst)
  else .error .dispatchAssert

/-- Embedding of `PatchTables::Limit`: asserts the store is feature-adaptive, then
runs the dispatch body. -/
def Limit (pt : PatchTablesModel) (handle : PatchHandle)
    (s t : ℚ) (src : ℕ → ℚ) (dst : Primvar) : Except EvalError Primvar :=
  if pt.featureAdaptive then limitBody pt handle s t src dst
  else .error .preconditionAssert

/-- The un-pinned sub-quadrant denominator for each blended slot, in
`fcount` order: `s+t`, `(1−s)+t`, `s+(1−t)`, `(1−s)+(1−t)`. -/
def gregoryRawDenom (s t : ℚ) : ℕ → ℚ
  | 0 => s + t
  | 1 => (1 - s) + t
  | 2 => s + (1 - t)
  | _ => (1 - s) + (1 - t)

/-- The spec's description of the per-slot (blended) stencil value of a
Gregory-basis patch: the fixed 16→20 permutation assigns a single
stencil to 12 of the 16 tensor-basis slots, and to the four inner slots
(the 6th, 7th, 10th and 11th, one per sub-quadrant) a blend of two
stencils with split-ratio weights `s/(s+t)` and `t/(s+t)` (and the
corresponding ratios of the other three sub-quadrants). -/
def gregorySpecSlot (basisStencils : StencilFn) (stencilIndex : ℕ)
    (s t : ℚ) (src : ℕ → ℚ) : ℕ → ℚ
  | 5 => s / (s + t) *
        stencilVal src (basisStencils (stencilIndex + 3)) +
      t / (s + t) *
        stencilVal src (basisStencils (stencilIndex + 4))
  | 6 => (1 - s) / ((1 - s) + t) *
        stencilVal src (basisStencils (stencilIndex + 9)) +
      t / ((1 - s) + t) *
        stencilVal src (basisStencils (stencilIndex + 8))
  | 9 => s / (s + (1 - t)) *
        stencilVal src (basisStencils (stencilIndex + 19)) +
      (1 - t) / (s + (1 - t)) *
        stencilVal src (basisStencils (stencilIndex + 18))
  | 10 => (1 - s) / ((1 - s) + (1 - t)) *
        stencilVal src (basisStencils (stencilIndex + 13)) +
      (1 - t) / ((1 - s) + (1 - t)) *
        stencilVal src (basisStencils (stencilIndex + 14))
  | i => stencilVal src (basisStencils (stencilIndex + (permute i).toNat))

/-- The pinned sub-quadrant denominator actually used as divisor by
`InterpolateGregoryPatch`, in `fcount` order (`d11,d12,d21,d22`). -/
def gregoryPinnedDenom (s t : ℚ) : ℕ → ℚ
  | 0 => (gregoryDenoms s t).1
  | 1 => (gregoryDenoms s t).2.1
  | 2 => (gregoryDenoms s t).2.2.1
  | _ => (gregoryDenoms s t).2.2.2

/-! ## Concrete instances -/

/-- A concrete stencil table: stencil `k` has the single source `k`
with weight `1`. -/
def stencilsOne : StencilFn := fun k => [(k, 1)]

/-- A concrete source buffer: vertex `n` holds the value `n`. -/
def srcNat : ℕ → ℚ := fun n => (n : ℚ)

/-- A concrete constant weight vector. -/
def oneW : ℕ → ℚ := fun _ => 1

/-- A concrete patch handle. -/
def handle0 : PatchHandle := ⟨0, 0, 0⟩

/-- A concrete feature-adaptive store whose only array holds
single-crease patches. -/
def ptSingleCrease : PatchTablesModel :=
  ⟨true, fun _ => .SINGLE_CREASE, fun _ p => p, fun _ k => k,
   fun _ _ _ _ => (oneW, oneW, oneW), some stencilsOne⟩

/-- A concrete feature-adaptive store whose only array holds Gregory
patches. -/
def ptGregory : PatchTablesModel :=
  ⟨true, fun _ => .GREGORY, fun _ p => p, fun _ k => k,
   fun _ _ _ _ => (oneW, oneW, oneW), some stencilsOne⟩

/-! ## Helper lemmas -/

theorem stencilAccum_spec (src : ℕ → ℚ) (entries : List (ℕ × ℚ))
    (wq w1 w2 : ℚ) (dst : Primvar) :
    stencilAccum src entries wq w1 w2 dst =
      ⟨dst.v + wq * stencilVal src entries,
       dst.d1 + w1 * stencilVal src entries,
       dst.d2 + w2 * stencilVal src entries⟩ := by
  induction entries generalizing dst with
  | nil => simp [stencilAccum, stencilVal]
  | cons e es ih =>
    simp only [stencilAccum, List.foldl_cons] at *
    rw [ih]
    simp only [stencilVal, List.map_cons, List.sum_cons, addWithWeight]
    rw [Primvar.mk.injEq]
    refine ⟨by ring, by ring, by ring⟩

/-! ## Theorems for the claims -/

/-- C6: the four bilinear value weights used by `InterpolateBilinear`
are `(1-s)(1-t), s(1-t), s·t, (1-s)t` and sum to 1, and each of the two
derivative weight sets `{t-1, 1-t, t, -t}` and `{s-1, -s, s, 1-s}`
sums to 0, for every `(s,t)` in exact arithmetic (hence in particular
at the four corners of the unit domain). -/
theorem bilinear_weights_partition_of_unity (s t : ℚ) :
    bilinearQ s t = [(1 - s) * (1 - t), s * (1 - t), s * t, (1 - s) * t] ∧
    bilinearDQ1 s t = [t - 1, 1 - t, t, -t] ∧
    bilinearDQ2 s t = [s - 1, -s, s, 1 - s] ∧
    (bilinearQ s t).sum = 1 ∧
    (bilinearDQ1 s t).sum = 0 ∧
    (bilinearDQ2 s t).sum = 0 := by
  refine ⟨rfl, rfl, rfl, ?_, ?_, ?_⟩ <;>
    simp [bilinearQ, bilinearDQ1, bilinearDQ2] <;> ring

/-- C2: `InterpolateBoundaryPatch` accumulates, for each missing
outer-ring vertex `k < 4`, the combination `2·v[k] − v[k+4]` weighted
by `Q[k]` (and `Qd1[k]`, `Qd2[k]`), and maps the remaining weights
`Q[4..15]` one-to-one onto the 12 stored vertices. -/
theorem boundary_patch_mirror_contributions (cvs : ℕ → ℕ)
    (Q Qd1 Qd2 : ℕ → ℚ) (src : ℕ → ℚ) (dst : Primvar) :
    interpolateBoundaryPatch cvs Q Qd1 Qd2 src dst =
      ⟨dst.v + (∑ k ∈ Finset.range 4,
          Q k * (2 * src (cvs k) - src (cvs (k + 4)))) +
        ∑ k ∈ Finset.range 12, Q (k + 4) * src (cvs k),
       dst.d1 + (∑ k ∈ Finset.range 4,
          Qd1 k * (2 * src (cvs k) - src (cvs (k + 4)))) +
        ∑ k ∈ Finset.range 12, Qd1 (k + 4) * src (cvs k),
       dst.d2 + (∑ k ∈ Finset.range 4,
          Qd2 k * (2 * src (cvs k) - src (cvs (k + 4)))) +
        ∑ k ∈ Finset.range 12, Qd2 (k + 4) * src (cvs k)⟩ := by
  simp only [interpolateBoundaryPatch, List.range_succ, List.foldl_append,
    List.foldl_cons, List.foldl_nil, List.range_zero, addWithWeight,
    Finset.sum_range_succ, Finset.sum_range_zero]
  rw [Primvar.mk.injEq]
  refine ⟨by ring, by ring, by ring⟩

/-- C3: `InterpolateCornerPatch` reconstructs the absent corner slot
(weight index 3) as `−2·v1 + 4·v2 + v4 − 2·v5`, the two missing edges
by single mirrors `2·v − neighbor` (weight indices `0..2` and
`7,11,15`), and maps the remaining 9 weights one-to-one onto the 3×3
stored grid. -/
theorem corner_patch_mirror_contributions (cvs : ℕ → ℕ)
    (Q Qd1 Qd2 : ℕ → ℚ) (src : ℕ → ℚ) (dst : Primvar) :
    interpolateCornerPatch cvs Q Qd1 Qd2 src dst =
      ⟨dst.v + (∑ k ∈ Finset.range 3,
          Q k * (2 * src (cvs k) - src (cvs (k + 3)))) +
        (∑ k ∈ Finset.range 3, Q ((k + 1) * 4 + 3) *
          (2 * src (cvs (k * 3 + 2)) - src (cvs (k * 3 + 1)))) +
        Q 3 * (-2 * src (cvs 1) + 4 * src (cvs 2) +
          src (cvs 4) - 2 * src (cvs 5)) +
        ∑ y ∈ Finset.range 3, ∑ x ∈ Finset.range 3,
          Q (y * 4 + x + 4) * src (cvs (y * 3 + x)),
       dst.d1 + (∑ k ∈ Finset.range 3,
          Qd1 k * (2 * src (cvs k) - src (cvs (k + 3)))) +
        (∑ k ∈ Finset.range 3, Qd1 ((k + 1) * 4 + 3) *
          (2 * src (cvs (k * 3 + 2)) - src (cvs (k * 3 + 1)))) +
        Qd1 3 * (-2 * src (cvs 1) + 4 * src (cvs 2) +
          src (cvs 4) - 2 * src (cvs 5)) +
        ∑ y ∈ Finset.range 3, ∑ x ∈ Finset.range 3,
          Qd1 (y * 4 + x + 4) * src (cvs (y * 3 + x)),
       dst.d2 + (∑ k ∈ Finset.range 3,
          Qd2 k * (2 * src (cvs k) - src (cvs (k + 3)))) +
        (∑ k ∈ Finset.range 3, Qd2 ((k + 1) * 4 + 3) *
          (2 * src (cvs (k * 3 + 2)) - src (cvs (k * 3 + 1)))) +
        Qd2 3 * (-2 * src (cvs 1) + 4 * src (cvs 2) +
          src (cvs 4) - 2 * src (cvs 5)) +
        ∑ y ∈ Finset.range 3, ∑ x ∈ Finset.range 3,
          Qd2 (y * 4 + x + 4) * src (cvs (y * 3 + x))⟩ := by
  simp only [interpolateCornerPatch, List.range_succ, List.foldl_append,
    List.foldl_cons, List.foldl_nil, List.range_zero, addWithWeight,
    Finset.sum_range_succ, Finset.sum_range_zero]
  rw [Primvar.mk.injEq]
  refine ⟨by ring, by ring, by ring⟩

/-- C4: whenever no sub-quadrant denominator vanishes,
`InterpolateGregoryPatch` accumulates, for each tensor-basis slot `i`,
the basis weight `Q[i]` (resp. `Qd1[i]`, `Qd2[i]`) times the
single-stencil value of the permuted slot for the 12 direct slots, and
times the split-ratio blend of the two sub-quadrant stencils for the 4
inner slots — each stencil expanded over its source-vertex list with
its per-source weights. -/
theorem gregory_patch_blend_structure (basisStencils : StencilFn)
    (stencilIndex : ℕ) (s t : ℚ) (Q Qd1 Qd2 : ℕ → ℚ) (src : ℕ → ℚ)
    (dst : Primvar)
    (h11 : s + t ≠ 0) (h12 : (1 - s) + t ≠ 0)
    (h21 : s + (1 - t) ≠ 0) (h22 : (1 - s) + (1 - t) ≠ 0) :
    interpolateGregoryPatch basisStencils stencilIndex s t Q Qd1 Qd2 src dst =
      ⟨dst.v + ∑ i ∈ Finset.range 16,
          Q i * gregorySpecSlot basisStencils stencilIndex s t src i,
       dst.d1 + ∑ i ∈ Finset.range 16,
          Qd1 i * gregorySpecSlot basisStencils stencilIndex s t src i,
       dst.d2 + ∑ i ∈ Finset.range 16,
          Qd2 i * gregorySpecSlot basisStencils stencilIndex s t src i⟩ := by
  simp only [interpolateGregoryPatch, List.range_succ, List.foldl_append,
    List.foldl_cons, List.foldl_nil, List.range_zero, permute, fpermute,
    gregoryBlendWeights, gregoryDenoms, if_neg h11, if_neg h12, if_neg h21,
    if_neg h22, stencilAccum_spec, Finset.sum_range_succ,
    Finset.sum_range_zero, gregorySpecSlot]
  norm_num [Primvar.mk.injEq]
  refine ⟨by ring, by ring, by ring⟩

/-- C1 counterexample: at the domain corner `(s,t) = (0,0)` both the
numerator `s` and the denominator `s+t` of the first split ratio
vanish, yet the ratio computed by `InterpolateGregoryPatch` evaluates
to `0`, not to the pinned value `1` (it is the denominator, not the
ratio, that is pinned to `1`). -/
theorem gregory_corner_ratio_not_one :
    (0 : ℚ) = 0 ∧ (0 : ℚ) + 0 = 0 ∧
    (gregoryBlendWeights 0 0 0).1 = 0 ∧
    (gregoryBlendWeights 0 0 0).1 ≠ 1 := by
  refine ⟨rfl, by norm_num, ?_, ?_⟩ <;>
    norm_num [gregoryBlendWeights, gregoryDenoms]

/-- C1 (amended): at each of the four domain corners every divisor used
by `InterpolateGregoryPatch` is nonzero (no division by zero), and at
the corner's degenerate sub-quadrant — where the un-pinned denominator
vanishes — the denominator is replaced by the pinned value `1` and the
split-ratio pair evaluates to `(0, 0)`. -/
theorem gregory_corner_ratios_no_div_by_zero :
    ((gregoryPinnedDenom 0 0 0 ≠ 0 ∧ gregoryPinnedDenom 0 0 1 ≠ 0 ∧
      gregoryPinnedDenom 0 0 2 ≠ 0 ∧ gregoryPinnedDenom 0 0 3 ≠ 0) ∧
      gregoryRawDenom 0 0 0 = 0 ∧ gregoryPinnedDenom 0 0 0 = 1 ∧
      gregoryBlendWeights 0 0 0 = (0, 0)) ∧
    ((gregoryPinnedDenom 1 0 0 ≠ 0 ∧ gregoryPinnedDenom 1 0 1 ≠ 0 ∧
      gregoryPinnedDenom 1 0 2 ≠ 0 ∧ gregoryPinnedDenom 1 0 3 ≠ 0) ∧
      gregoryRawDenom 1 0 1 = 0 ∧ gregoryPinnedDenom 1 0 1 = 1 ∧
      gregoryBlendWeights 1 0 1 = (0, 0)) ∧
    ((gregoryPinnedDenom 0 1 0 ≠ 0 ∧ gregoryPinnedDenom 0 1 1 ≠ 0 ∧
      gregoryPinnedDenom 0 1 2 ≠ 0 ∧ gregoryPinnedDenom 0 1 3 ≠ 0) ∧
      gregoryRawDenom 0 1 2 = 0 ∧ gregoryPinnedDenom 0 1 2 = 1 ∧
      gregoryBlendWeights 0 1 2 = (0, 0)) ∧
    ((gregoryPinnedDenom 1 1 0 ≠ 0 ∧ gregoryPinnedDenom 1 1 1 ≠ 0 ∧
      gregoryPinnedDenom 1 1 2 ≠ 0 ∧ gregoryPinnedDenom 1 1 3 ≠ 0) ∧
      gregoryRawDenom 1 1 3 = 0 ∧ gregoryPinnedDenom 1 1 3 = 1 ∧
      gregoryBlendWeights 1 1 3 = (0, 0)) := by
  refine ⟨⟨⟨?_, ?_, ?_, ?_⟩, ?_, ?_, ?_⟩, ⟨⟨?_, ?_, ?_, ?_⟩, ?_, ?_, ?_⟩,
    ⟨⟨?_, ?_, ?_, ?_⟩, ?_, ?_, ?_⟩, ⟨⟨?_, ?_, ?_, ?_⟩, ?_, ?_, ?_⟩⟩ <;>
    norm_num [gregoryPinnedDenom, gregoryRawDenom, gregoryBlendWeights,
      gregoryDenoms, Prod.ext_iff]

/-- C10: for `(s,t)` in the unit square and each sub-quadrant, the pair
of blend weights of `InterpolateGregoryPatch` sums exactly to `1`
whenever the sub-quadrant denominator is nonzero; when it is zero the
denominator is replaced by `1`, both weights evaluate to `0`, and the
blended slot's two stencil accumulations leave the destination
unchanged. -/
theorem gregory_blend_weights_partition (s t : ℚ)
    (hs0 : 0 ≤ s) (hs1 : s ≤ 1) (ht0 : 0 ≤ t) (ht1 : t ≤ 1) (q : ℕ) :
    (gregoryRawDenom s t q ≠ 0 →
      (gregoryBlendWeights s t q).1 + (gregoryBlendWeights s t q).2 = 1) ∧
    (gregoryRawDenom s t q = 0 →
      gregoryPinnedDenom s t q = 1 ∧
      (gregoryBlendWeights s t q).1 = 0 ∧
      (gregoryBlendWeights s t q).2 = 0 ∧
      ∀ (Qi Q1i Q2i : ℚ) (e0 e1 : List (ℕ × ℚ)) (src : ℕ → ℚ) (d : Primvar),
        stencilAccum src e1 (Qi * (gregoryBlendWeights s t q).2)
            (Q1i * (gregoryBlendWeights s t q).2)
            (Q2i * (gregoryBlendWeights s t q).2)
          (stencilAccum src e0 (Qi * (gregoryBlendWeights s t q).1)
            (Q1i * (gregoryBlendWeights s t q).1)
            (Q2i * (gregoryBlendWeights s t q).1) d) = d) := by
  rcases q with _ | _ | _ | q
  · refine ⟨fun hne => ?_, fun hz => ?_⟩
    · simp only [gregoryRawDenom] at hne
      simp only [gregoryBlendWeights, gregoryDenoms, if_neg hne,
        div_add_div_same]
      exact div_self hne
    · simp only [gregoryRawDenom] at hz
      have hn0 : s = 0 := by linarith
      have hn1 : t = 0 := by linarith
      refine ⟨?_, ?_, ?_, ?_⟩ <;>
        simp [gregoryBlendWeights, gregoryDenoms, gregoryPinnedDenom,
          hn0, hn1, stencilAccum_spec]
  · refine ⟨fun hne => ?_, fun hz => ?_⟩
    · simp only [gregoryRawDenom] at hne
      simp only [gregoryBlendWeights, gregoryDenoms, if_neg hne,
        div_add_div_same]
      exact div_self hne
    · simp only [gregoryRawDenom] at hz
      have hn0 : (1 : ℚ) - s = 0 := by linarith
      have hn1 : t = 0 := by linarith
      refine ⟨?_, ?_, ?_, ?_⟩ <;>
        simp [gregoryBlendWeights, gregoryDenoms, gregoryPinnedDenom,
          hn0, hn1, stencilAccum_spec]
  · refine ⟨fun hne => ?_, fun hz => ?_⟩
    · simp only [gregoryRawDenom] at hne
      simp only [gregoryBlendWeights, gregoryDenoms, if_neg hne,
        div_add_div_same]
      exact div_self hne
    · simp only [gregoryRawDenom] at hz
      have hn0 : s = 0 := by linarith
      have hn1 : (1 : ℚ) - t = 0 := by linarith
      refine ⟨?_, ?_, ?_, ?_⟩ <;>
        simp [gregoryBlendWeights, gregoryDenoms, gregoryPinnedDenom,
          hn0, hn1, stencilAccum_spec]
  · refine ⟨fun hne => ?_, fun hz => ?_⟩
    · simp only [gregoryRawDenom] at hne
      simp only [gregoryBlendWeights, gregoryDenoms, if_neg hne,
        div_add_div_same]
      exact div_self hne
    · simp only [gregoryRawDenom] at hz
      have hn0 : (1 : ℚ) - s = 0 := by linarith
      have hn1 : (1 : ℚ) - t = 0 := by linarith
      refine ⟨?_, ?_, ?_, ?_⟩ <;>
        simp [gregoryBlendWeights, gregoryDenoms, gregoryPinnedDenom,
          hn0, hn1, stencilAccum_spec]

/-- C5: `Limit` on a patch whose array descriptor type is
`SINGLE_CREASE` clears the destination and performs no accumulation:
the result is exactly the cleared destination. -/
theorem limit_single_crease_no_contribution (pt : PatchTablesModel)
    (handle : PatchHandle) (s t : ℚ) (src : ℕ → ℚ) (dst : Primvar)
    (hfa : pt.featureAdaptive = true)
    (hty : pt.arrayType handle.arrayIndex = PatchType.SINGLE_CREASE) :
    Limit pt handle s t src dst = .ok (clear dst) := by
  simp [Limit, limitBody, hfa, hty, PatchType.code]

/-- C7: `Interpolate` requires a non-feature-adaptive store and `Limit`
a feature-adaptive one; the offending call fails its precondition
assertion, and under the stated precondition the assertion-failure
branch is not taken (`Interpolate` returns a computed value, `Limit`
proceeds to its dispatch body). -/
theorem interpolate_limit_preconditions (pt : PatchTablesModel)
    (handle : PatchHandle) (s t : ℚ) (src : ℕ → ℚ) (dst : Primvar) :
    (pt.featureAdaptive = true →
      Interpolate pt handle s t src dst = .error .preconditionAssert ∧
      Limit pt handle s t src dst = limitBody pt handle s t src dst) ∧
    (pt.featureAdaptive = false →
      (∃ r, Interpolate pt handle s t src dst = .ok r) ∧
      Limit pt handle s t src dst = .error .preconditionAssert) := by
  constructor
  · intro h
    constructor <;> simp [Interpolate, Limit, h]
  · intro h
    refine ⟨?_, by simp [Limit, h]⟩
    simp only [Interpolate, h, Bool.false_eq_true, if_false]
    exact ⟨_, rfl⟩

/-- C8: in `Limit` on a feature-adaptive store, a `GREGORY` or
`GREGORY_BOUNDARY` descriptor, or any descriptor outside the
`REGULAR..CORNER` range other than `GREGORY_BASIS`, hits a fatal
`assert(0)`; a `REGULAR`, `SINGLE_CREASE`, `BOUNDARY`, `CORNER` or
`GREGORY_BASIS` descriptor never does. -/
theorem limit_dispatch_assertions (pt : PatchTablesModel)
    (handle : PatchHandle) (s t : ℚ) (src : ℕ → ℚ) (dst : Primvar)
    (hfa : pt.featureAdaptive = true) :
    (pt.arrayType handle.arrayIndex = PatchType.GREGORY ∨
     pt.arrayType handle.arrayIndex = PatchType.GREGORY_BOUNDARY ∨
     (¬(PatchType.REGULAR.code ≤ (pt.arrayType handle.arrayIndex).code ∧
        (pt.arrayType handle.arrayIndex).code ≤ PatchType.CORNER.code) ∧
      pt.arrayType handle.arrayIndex ≠ PatchType.GREGORY_BASIS) →
      Limit pt handle s t src dst = .error .dispatchAssert) ∧
    (pt.arrayType handle.arrayIndex = PatchType.REGULAR ∨
     pt.arrayType handle.arrayIndex = PatchType.SINGLE_CREASE ∨
     pt.arrayType handle.arrayIndex = PatchType.BOUNDARY ∨
     pt.arrayType handle.arrayIndex = PatchType.CORNER ∨
     pt.arrayType handle.arrayIndex = PatchType.GREGORY_BASIS →
      Limit pt handle s t src dst ≠ .error .dispatchAssert) := by
  constructor
  · rintro (h | h | ⟨hr, hb⟩)
    · simp [Limit, limitBody, hfa, h, PatchType.code]
    · simp [Limit, limitBody, hfa, h, PatchType.code]
    · cases hty : pt.arrayType handle.arrayIndex <;>
        rw [hty] at hr hb <;>
        simp_all [Limit, limitBody, PatchType.code]
  · rintro (h | h | h | h | h) <;>
      simp [Limit, limitBody, hfa, h, PatchType.code]
    rcases pt.endcapStencils with _ | stencils <;> simp

/-- C9: `Limit` and `Interpolate` are deterministic pure functions of
the store contents, handle, parametric location and source buffer:
equal inputs (in particular a store and a deep-equal copy of it) give
identical results. -/
theorem limit_interpolate_deterministic
    (pt pt' : PatchTablesModel) (handle handle' : PatchHandle)
    (s s' t t' : ℚ) (src src' : ℕ → ℚ) (dst dst' : Primvar)
    (hpt : pt = pt') (hh : handle = handle') (hs : s = s') (ht : t = t')
    (hsrc : src = src') (hdst : dst = dst') :
    Limit pt handle s t src dst = Limit pt' handle' s' t' src' dst' ∧
    Interpolate pt handle s t src dst =
      Interpolate pt' handle' s' t' src' dst' := by
  subst hpt hh hs ht hsrc hdst
  exact ⟨rfl, rfl⟩

/-! ## Witnesses -/

theorem gregory_patch_blend_structure_witness :
    (2 : ℚ) + 2 ≠ 0 ∧ (1 - 2 : ℚ) + 2 ≠ 0 ∧ (2 : ℚ) + (1 - 2) ≠ 0 ∧
    (1 - 2 : ℚ) + (1 - 2) ≠ 0 ∧
    interpolateGregoryPatch stencilsOne 0 2 2 oneW oneW oneW srcNat
        ⟨0, 0, 0⟩ =
      ⟨0 + ∑ i ∈ Finset.range 16,
          oneW i * gregorySpecSlot stencilsOne 0 2 2 srcNat i,
       0 + ∑ i ∈ Finset.range 16,
          oneW i * gregorySpecSlot stencilsOne 0 2 2 srcNat i,
       0 + ∑ i ∈ Finset.range 16,
          oneW i * gregorySpecSlot stencilsOne 0 2 2 srcNat i⟩ :=
  ⟨by norm_num, by norm_num, by norm_num, by norm_num,
   gregory_patch_blend_structure stencilsOne 0 2 2 oneW oneW oneW srcNat
     ⟨0, 0, 0⟩ (by norm_num) (by norm_num) (by norm_num) (by norm_num)⟩

theorem gregory_blend_weights_partition_witness :
    gregoryPinnedDenom 0 0 0 = 1 ∧ (gregoryBlendWeights 0 0 0).1 = 0 ∧
    (gregoryBlendWeights 0 0 0).2 = 0 := by
  have H := (gregory_blend_weights_partition 0 0 le_rfl zero_le_one
    le_rfl zero_le_one 0).2 (by norm_num [gregoryRawDenom])
  exact ⟨H.1, H.2.1, H.2.2.1⟩

theorem limit_single_crease_witness :
    Limit ptSingleCrease handle0 0 0 srcNat ⟨1, 2, 3⟩ =
      .ok (clear ⟨1, 2, 3⟩) :=
  limit_single_crease_no_contribution ptSingleCrease handle0 0 0 srcNat
    ⟨1, 2, 3⟩ rfl rfl

theorem interpolate_limit_preconditions_witness :
    Interpolate ptSingleCrease handle0 0 0 srcNat ⟨0, 0, 0⟩ =
      .error .preconditionAssert :=
  ((interpolate_limit_preconditions ptSingleCrease handle0 0 0 srcNat
    ⟨0, 0, 0⟩).1 rfl).1

theorem limit_dispatch_assertions_witness :
    Limit ptGregory handle0 0 0 srcNat ⟨0, 0, 0⟩ =
      .error .dispatchAssert :=
  (limit_dispatch_assertions ptGregory handle0 0 0 srcNat
    ⟨0, 0, 0⟩ rfl).1 (Or.inl rfl)

theorem limit_interpolate_deterministic_witness :
    Limit ptSingleCrease handle0 0 0 srcNat ⟨0, 0, 0⟩ =
      Limit ptSingleCrease handle0 0 0 srcNat ⟨0, 0, 0⟩ :=
  (limit_interpolate_deterministic ptSingleCrease ptSingleCrease handle0
    handle0 0 0 0 0 srcNat srcNat ⟨0, 0, 0⟩ ⟨0, 0, 0⟩
    rfl rfl rfl rfl rfl rfl).1

end Far
end OpenSubdiv
